import Mathlib

set_option linter.unusedVariables false

/-
Shallow embedding of the grounding-game orchestrator
(src/games/grounding/master.py and src/games/grounding/players.py).

Modelling notes:
* Message histories are Lean lists of role/content pairs, mirroring the
  Python dicts {'role': ..., 'content': ...}.
* The backend capability (Player.__call__) is an opaque function from a
  history and a turn argument to an optional reply; `none` models the
  backend call raising an exception.  Exception propagation is modelled
  with `Except GState`, where the error payload is the orchestrator state
  at the point the exception escaped (the Python object retains exactly
  that state: events already logged stay logged, nothing later runs).
* The Python probe method passes `self.turn` (a bound method object, not
  an integer) as the turn-index argument; `TurnArg` therefore has two
  constructors, one for a genuine integer index and one for that method
  reference, so that the argument each call site passes is recorded
  faithfully.
* The audit pair (prompt, raw_answer) attached to get-message events and
  the framework-level log_players record are not needed by any claim and
  are omitted from the Event type.
-/

structure Message where
  role : String
  content : String
deriving DecidableEq, Repr

/-- The Speaker class of players.py: identity tag, private context and
fact lists, plus the dialogue history it owns. -/
structure Speaker where
  model_name : String
  player : String
  context : String
  subjects : List String
  entity1_info : List String
  entity2_info : List String
  history : List Message
deriving DecidableEq, Repr

/-- The value passed as the turn_idx argument of a backend call.
`idx i` is an integer turn index; `methodRef` is the bound method
`self.turn` that master.py's probe passes instead of an integer. -/
inductive TurnArg where
  | idx (i : Nat) : TurnArg
  | methodRef : TurnArg
deriving DecidableEq, Repr

structure Event where
  src : String
  dst : String
  typ : String
  content : String
deriving DecidableEq, Repr

/-- One backend invocation: which player's backend was called and what
was passed as the turn_idx argument. -/
structure CallRec where
  player : String
  turn_idx : TurnArg
deriving DecidableEq, Repr

/-- The mutable state of a Grounding game master instance. -/
structure GState where
  n_turns : Nat
  current_turn : Nat
  complete_turns : Nat
  request_counts : List Nat
  player_a : Speaker
  player_b : Speaker
  log : List Event
  keys : List (String × Nat)
  calls : List CallRec
deriving DecidableEq, Repr

/-- A backend: given the presented history and the turn_idx argument,
either reply with a string or fail (raise). -/
abbrev Backend := List Message → TurnArg → Option String

def logEvent (src dst typ content : String) (s : GState) : GState :=
  { s with log := s.log ++ [⟨src, dst, typ, content⟩] }

def logKey (k : String) (v : Nat) (s : GState) : GState :=
  { s with keys := s.keys ++ [(k, v)] }

def logNextTurn (s : GState) : GState :=
  { s with log := s.log ++ [⟨"GM", "GM", "next turn", ""⟩] }

def recordCall (p : String) (t : TurnArg) (s : GState) : GState :=
  { s with calls := s.calls ++ [⟨p, t⟩] }

/-- request_counts[i] += 1 (in range in every reachable state). -/
def incAt : List Nat → Nat → List Nat
  | [], _ => []
  | x :: xs, 0 => (x + 1) :: xs
  | x :: xs, n + 1 => x :: incAt xs n

/-- Grounding._append_utterance. -/
def appendUtterance (utterance : String) (player : String) (role : String)
    (s : GState) : GState :=
  if player = "a" then
    { s with player_a := { s.player_a with
        history := s.player_a.history ++ [⟨role, utterance⟩] } }
  else
    { s with player_b := { s.player_b with
        history := s.player_b.history ++ [⟨role, utterance⟩] } }

/-- Grounding._get_utterance.  The backend is called with the player's own
history and the integer current_turn; on success the reply is appended to
that player's history as an assistant message, a get-message event is
logged and request_counts[current_turn] is incremented.  A backend
exception propagates (Except.error) with the state as of the call. -/
def getUtterance (ba bb : Backend) (player : String) (s : GState) :
    Except GState (String × GState) :=
  if player = "a" then
    let s0 := recordCall "a" (TurnArg.idx s.current_turn) s
    match ba s.player_a.history (TurnArg.idx s.current_turn) with
    | none => Except.error s0
    | some answer =>
      let s1 := appendUtterance answer "a" "assistant" s0
      let s2 := logEvent "Player 1" "GM" "get message" answer s1
      Except.ok (answer,
        { s2 with request_counts := incAt s2.request_counts s2.current_turn })
  else
    let s0 := recordCall "b" (TurnArg.idx s.current_turn) s
    match bb s.player_b.history (TurnArg.idx s.current_turn) with
    | none => Except.error s0
    | some answer =>
      let s1 := appendUtterance answer "b" "assistant" s0
      let s2 := logEvent "Player 2" "GM" "get message" answer s1
      Except.ok (answer,
        { s2 with request_counts := incAt s2.request_counts s2.current_turn })

def probeQuestion : String :=
  "What do you believe to be shared knowledge between you and your conversation partner?"

/-- Grounding.probe.  Each player's backend is called on a copy of that
player's history extended with the probe question; the copies are
discarded, only events are logged.  The turn_idx argument passed is the
bound method self.turn, not an integer. -/
def probe (ba bb : Backend) (s : GState) : Except GState GState :=
  let historyA := s.player_a.history ++ [⟨"user", probeQuestion⟩]
  let s1 := logEvent "GM" "Player 1" "probe question" probeQuestion s
  let s1' := recordCall "a" TurnArg.methodRef s1
  match ba historyA TurnArg.methodRef with
  | none => Except.error s1'
  | some answerA =>
    let s2 := logEvent "GM" "GM" "probe response" answerA s1'
    let historyB := s2.player_b.history ++ [⟨"user", probeQuestion⟩]
    let s3 := logEvent "GM" "Player 2" "probe question" probeQuestion s2
    let s3' := recordCall "b" TurnArg.methodRef s3
    match bb historyB TurnArg.methodRef with
    | none => Except.error s3'
    | some answerB => Except.ok (logEvent "GM" "GM" "probe response" answerB s3')

/-- Grounding.proceed. -/
def proceed (s : GState) : Bool :=
  s.current_turn < s.n_turns

/-- Grounding.turn: A replies (appended to A's history), A's reply is
relayed into B's history as a user message, B replies, B's reply is
relayed into A's history, then complete_turns is incremented. -/
def turn (ba bb : Backend) (s : GState) : Except GState GState :=
  match getUtterance ba bb "a" s with
  | Except.error e => Except.error e
  | Except.ok (answer_a, s1) =>
    let s2 := appendUtterance answer_a "b" "user" s1
    let s3 := logEvent "GM" "Player 2" "send message" answer_a s2
    match getUtterance ba bb "b" s3 with
    | Except.error e => Except.error e
    | Except.ok (answer_b, s4) =>
      let s5 := appendUtterance answer_b "a" "user" s4
      let s6 := logEvent "GM" "Player 1" "send message" answer_b s5
      Except.ok { s6 with complete_turns := s6.complete_turns + 1 }

/-- The while-loop of Grounding.play.  The guard is `proceed` exactly as
in the source; the Nat argument is a fuel bound used only to exhibit
termination, and play supplies n_turns - current_turn, which the lemma
play_loop_ok shows never cuts the loop short (the guard goes false exactly
when the fuel runs out). -/
def play_loop (ba bb : Backend) : Nat → GState → Except GState GState
  | 0, s => Except.ok s
  | fuel + 1, s =>
    if proceed s then
      let s1 := logNextTurn { s with current_turn := s.current_turn + 1 }
      match turn ba bb s1 with
      | Except.error e => Except.error e
      | Except.ok s2 =>
        match probe ba bb s2 with
        | Except.error e => Except.error e
        | Except.ok s3 => play_loop ba bb fuel s3
    else Except.ok s

/-- The tail of Grounding.play after the loop, plus log_eval_assets:
log 'game successful' when complete_turns == n_turns, always log
'end game', then record the 'Played turns' evaluation key. -/
def finishPlay (s : GState) : GState :=
  let s1 := if s.complete_turns = s.n_turns
    then logEvent "GM" "GM" "info" "game successful" s
    else s
  let s2 := logEvent "GM" "GM" "info" "end game" s1
  logKey "Played turns" s2.current_turn s2

/-- Grounding.play. -/
def play (ba bb : Backend) (s : GState) : Except GState GState :=
  match play_loop ba bb (s.n_turns - s.current_turn) s with
  | Except.error e => Except.error e
  | Except.ok s1 => Except.ok (finishPlay s1)

/-- Grounding.initiate: log_next_turn, append each initial prompt as the
first user message of the respective history, log both as send-message
events. -/
def initiate (prompt_player_a prompt_player_b : String) (s : GState) : GState :=
  let s1 := logNextTurn s
  let s2 := { s1 with player_a := { s1.player_a with
      history := s1.player_a.history ++ [Message.mk "user" prompt_player_a] } }
  let s3 := { s2 with player_b := { s2.player_b with
      history := s2.player_b.history ++ [Message.mk "user" prompt_player_b] } }
  let s4 := logEvent "GM" "Player 1" "send message" prompt_player_a s3
  logEvent "GM" "Player 2" "send message" prompt_player_b s4

/-- Grounding.setup (with model/context data from __init__): build both
Speakers with the same subjects and fact lists, zero the counters, size
request_counts to n_turns + 1, run initiate, record the n_turns key.
game_id is accepted and unused, as in the source. -/
def setup (model_a model_b context : String)
    (subjects entity1_info entity2_info : List String)
    (n_turns : Nat) (prompt_player_a prompt_player_b : String)
    (game_id : Nat) : GState :=
  let player_a : Speaker :=
    ⟨model_a, "A", context, subjects, entity1_info, entity2_info, []⟩
  let player_b : Speaker :=
    ⟨model_b, "B", context, subjects, entity1_info, entity2_info, []⟩
  let s : GState :=
    { n_turns := n_turns
      current_turn := 0
      complete_turns := 0
      request_counts := List.replicate (n_turns + 1) 0
      player_a := player_a
      player_b := player_b
      log := []
      keys := []
      calls := [] }
  let s1 := initiate prompt_player_a prompt_player_b s
  logKey "n_turns" n_turns s1

/-- State carried by an Except outcome: the final state of a normal
return, or the state at the point an exception escaped. -/
def stateOf : Except GState GState → GState
  | Except.ok s => s
  | Except.error s => s

/-- Sequencing of exception-propagating steps: run the continuation on a
normal result, propagate an escaped exception unchanged. -/
def exceptStep (r : Except GState GState) (f : GState → Except GState GState) :
    Except GState GState :=
  match r with
  | Except.error e => Except.error e
  | Except.ok s => f s

/-- Event types appended by one full turn-plus-probe cycle, in order. -/
def cycleTypes : List String :=
  ["next turn", "get message", "send message", "get message", "send message",
   "probe question", "probe response", "probe question", "probe response"]

/-- Event types appended by setup (via initiate), in order. -/
def setupTypes : List String :=
  ["next turn", "send message", "send message"]

/-- The block a completed run appends to A's history: per turn, A's own
reply as assistant then B's relayed reply as user. -/
def histA (as bs : List String) : List Message :=
  (List.zipWith (fun a b => [Message.mk "assistant" a, Message.mk "user" b]) as bs).flatten

/-- The block a completed run appends to B's history: per turn, A's
relayed reply as user then B's own reply as assistant. -/
def histB (as bs : List String) : List Message :=
  (List.zipWith (fun a b => [Message.mk "user" a, Message.mk "assistant" b]) as bs).flatten

/-- Add 2 at indices i, i+1, ..., i+k-1 (one double increment per turn). -/
def addTwos : List Nat → Nat → Nat → List Nat
  | l, _, 0 => l
  | l, i, k + 1 => addTwos (incAt (incAt l i) i) (i + 1) k

/-- Number of events of a given type in a log. -/
def countType (ty : String) (log : List Event) : Nat :=
  (log.filter (fun ev => ev.typ = ty)).length

/-- Whether adjacent entries of a role-tag list always differ. -/
def rolesAlternating : List String → Bool
  | [] => true
  | [_] => true
  | r1 :: r2 :: rest => (decide (r1 ≠ r2)) && rolesAlternating (r2 :: rest)

deriving instance DecidableEq for Except

/-- A backend that always replies. -/
def cBack : Backend := fun _ _ => some "reply"

/-- A backend that raises exactly on the integer turn index 2. -/
def cFailBa : Backend := fun _ t =>
  match t with
  | TurnArg.idx i => if i = 2 then none else some "reply"
  | TurnArg.methodRef => some "reply"

def cSetup0 : GState :=
  setup "m1" "m2" "ctx" ["s1", "s2"] ["f1"] ["f2"] 0 "pa" "pb" 0

def cSetup1 : GState :=
  setup "m1" "m2" "ctx" ["s1", "s2"] ["f1"] ["f2"] 1 "pa" "pb" 0

def cSetup3 : GState :=
  setup "m1" "m2" "ctx" ["s1", "s2"] ["f1"] ["f2"] 3 "pa" "pb" 0

theorem setup_state (model_a model_b context : String)
    (subjects entity1_info entity2_info : List String)
    (n_turns : Nat) (pa pb : String) (gid : Nat) :
    setup model_a model_b context subjects entity1_info entity2_info
      n_turns pa pb gid =
    { n_turns := n_turns
      current_turn := 0
      complete_turns := 0
      request_counts := List.replicate (n_turns + 1) 0
      player_a := ⟨model_a, "A", context, subjects, entity1_info, entity2_info,
        [Message.mk "user" pa]⟩
      player_b := ⟨model_b, "B", context, subjects, entity1_info, entity2_info,
        [Message.mk "user" pb]⟩
      log := [⟨"GM", "GM", "next turn", ""⟩,
              ⟨"GM", "Player 1", "send message", pa⟩,
              ⟨"GM", "Player 2", "send message", pb⟩]
      keys := [("n_turns", n_turns)]
      calls := [] } := by
  simp [setup, initiate, logNextTurn, logEvent, logKey]

theorem incAt_length (l : List Nat) (i : Nat) : (incAt l i).length = l.length := by
  induction l generalizing i with
  | nil => rfl
  | cons x xs ih =>
    cases i with
    | zero => rfl
    | succ n => simp [incAt, ih]

theorem turn_ok (ba bb : Backend) (s : GState) (a b : String)
    (ha : ba s.player_a.history (TurnArg.idx s.current_turn) = some a)
    (hb : bb (s.player_b.history ++ [Message.mk "user" a])
      (TurnArg.idx s.current_turn) = some b) :
    turn ba bb s = Except.ok { s with
      complete_turns := s.complete_turns + 1
      request_counts := incAt (incAt s.request_counts s.current_turn) s.current_turn
      player_a := { s.player_a with history :=
        s.player_a.history ++ [Message.mk "assistant" a, Message.mk "user" b] }
      player_b := { s.player_b with history :=
        s.player_b.history ++ [Message.mk "user" a, Message.mk "assistant" b] }
      log := s.log ++
        [⟨"Player 1", "GM", "get message", a⟩,
         ⟨"GM", "Player 2", "send message", a⟩,
         ⟨"Player 2", "GM", "get message", b⟩,
         ⟨"GM", "Player 1", "send message", b⟩]
      calls := s.calls ++
        [⟨"a", TurnArg.idx s.current_turn⟩, ⟨"b", TurnArg.idx s.current_turn⟩] } := by
  simp [turn, getUtterance, ha, hb, appendUtterance, logEvent, recordCall]

theorem turn_err_a (ba bb : Backend) (s : GState)
    (ha : ba s.player_a.history (TurnArg.idx s.current_turn) = none) :
    turn ba bb s =
      Except.error { s with calls := s.calls ++ [⟨"a", TurnArg.idx s.current_turn⟩] } := by
  simp [turn, getUtterance, ha, recordCall]

theorem turn_err_b (ba bb : Backend) (s : GState) (a : String)
    (ha : ba s.player_a.history (TurnArg.idx s.current_turn) = some a)
    (hb : bb (s.player_b.history ++ [Message.mk "user" a])
      (TurnArg.idx s.current_turn) = none) :
    turn ba bb s = Except.error { s with
      request_counts := incAt s.request_counts s.current_turn
      player_a := { s.player_a with history :=
        s.player_a.history ++ [Message.mk "assistant" a] }
      player_b := { s.player_b with history :=
        s.player_b.history ++ [Message.mk "user" a] }
      log := s.log ++
        [⟨"Player 1", "GM", "get message", a⟩,
         ⟨"GM", "Player 2", "send message", a⟩]
      calls := s.calls ++
        [⟨"a", TurnArg.idx s.current_turn⟩, ⟨"b", TurnArg.idx s.current_turn⟩] } := by
  simp [turn, getUtterance, ha, hb, appendUtterance, logEvent, recordCall]

theorem probe_ok (ba bb : Backend) (s : GState) (x y : String)
    (hx : ba (s.player_a.history ++ [Message.mk "user" probeQuestion])
      TurnArg.methodRef = some x)
    (hy : bb (s.player_b.history ++ [Message.mk "user" probeQuestion])
      TurnArg.methodRef = some y) :
    probe ba bb s = Except.ok { s with
      log := s.log ++
        [⟨"GM", "Player 1", "probe question", probeQuestion⟩,
         ⟨"GM", "GM", "probe response", x⟩,
         ⟨"GM", "Player 2", "probe question", probeQuestion⟩,
         ⟨"GM", "GM", "probe response", y⟩]
      calls := s.calls ++ [⟨"a", TurnArg.methodRef⟩, ⟨"b", TurnArg.methodRef⟩] } := by
  simp [probe, hx, hy, logEvent, recordCall]

theorem probe_err_a (ba bb : Backend) (s : GState)
    (hx : ba (s.player_a.history ++ [Message.mk "user" probeQuestion])
      TurnArg.methodRef = none) :
    probe ba bb s = Except.error { s with
      log := s.log ++ [⟨"GM", "Player 1", "probe question", probeQuestion⟩]
      calls := s.calls ++ [⟨"a", TurnArg.methodRef⟩] } := by
  simp [probe, hx, logEvent, recordCall]

theorem probe_err_b (ba bb : Backend) (s : GState) (x : String)
    (hx : ba (s.player_a.history ++ [Message.mk "user" probeQuestion])
      TurnArg.methodRef = some x)
    (hy : bb (s.player_b.history ++ [Message.mk "user" probeQuestion])
      TurnArg.methodRef = none) :
    probe ba bb s = Except.error { s with
      log := s.log ++
        [⟨"GM", "Player 1", "probe question", probeQuestion⟩,
         ⟨"GM", "GM", "probe response", x⟩,
         ⟨"GM", "Player 2", "probe question", probeQuestion⟩]
      calls := s.calls ++ [⟨"a", TurnArg.methodRef⟩, ⟨"b", TurnArg.methodRef⟩] } := by
  simp [probe, hx, hy, logEvent, recordCall]

theorem turn_ok_fields (ba bb : Backend) (s : GState) (a b : String)
    (ha : ba s.player_a.history (TurnArg.idx s.current_turn) = some a)
    (hb : bb (s.player_b.history ++ [Message.mk "user" a])
      (TurnArg.idx s.current_turn) = some b) :
    ∃ r, turn ba bb s = Except.ok r ∧
      r.n_turns = s.n_turns ∧
      r.current_turn = s.current_turn ∧
      r.complete_turns = s.complete_turns + 1 ∧
      r.request_counts = incAt (incAt s.request_counts s.current_turn) s.current_turn ∧
      r.player_a = { s.player_a with history :=
        s.player_a.history ++ [Message.mk "assistant" a, Message.mk "user" b] } ∧
      r.player_b = { s.player_b with history :=
        s.player_b.history ++ [Message.mk "user" a, Message.mk "assistant" b] } ∧
      r.log.map Event.typ = s.log.map Event.typ ++
        ["get message", "send message", "get message", "send message"] ∧
      r.keys = s.keys :=
  ⟨_, turn_ok ba bb s a b ha hb, rfl, rfl, rfl, rfl, rfl, rfl, by simp, rfl⟩

theorem probe_ok_fields (ba bb : Backend) (s : GState) (x y : String)
    (hx : ba (s.player_a.history ++ [Message.mk "user" probeQuestion])
      TurnArg.methodRef = some x)
    (hy : bb (s.player_b.history ++ [Message.mk "user" probeQuestion])
      TurnArg.methodRef = some y) :
    ∃ r, probe ba bb s = Except.ok r ∧
      r.n_turns = s.n_turns ∧
      r.current_turn = s.current_turn ∧
      r.complete_turns = s.complete_turns ∧
      r.request_counts = s.request_counts ∧
      r.player_a = s.player_a ∧
      r.player_b = s.player_b ∧
      r.log.map Event.typ = s.log.map Event.typ ++
        ["probe question", "probe response", "probe question", "probe response"] ∧
      r.keys = s.keys :=
  ⟨_, probe_ok ba bb s x y hx hy, rfl, rfl, rfl, rfl, rfl, rfl, by simp, rfl⟩

theorem play_loop_ok (ba bb : Backend) (m : Nat)
    (hba1 : ∀ h i, i ≤ m → (ba h (TurnArg.idx i)).isSome = true)
    (hba2 : ∀ h, (ba h TurnArg.methodRef).isSome = true)
    (hbb1 : ∀ h i, i ≤ m → (bb h (TurnArg.idx i)).isSome = true)
    (hbb2 : ∀ h, (bb h TurnArg.methodRef).isSome = true) :
    ∀ fuel s, s.current_turn + fuel ≤ s.n_turns → s.current_turn + fuel ≤ m →
    ∃ s' as bs, play_loop ba bb fuel s = Except.ok s' ∧
      as.length = fuel ∧ bs.length = fuel ∧
      s'.n_turns = s.n_turns ∧
      s'.current_turn = s.current_turn + fuel ∧
      s'.complete_turns = s.complete_turns + fuel ∧
      s'.player_a = { s.player_a with history := s.player_a.history ++ histA as bs } ∧
      s'.player_b = { s.player_b with history := s.player_b.history ++ histB as bs } ∧
      s'.request_counts = addTwos s.request_counts (s.current_turn + 1) fuel ∧
      s'.log.map Event.typ = s.log.map Event.typ ++
        (List.replicate fuel cycleTypes).flatten ∧
      s'.keys = s.keys := by
  intro fuel
  induction fuel with
  | zero =>
    intro s h1 h2
    exact ⟨s, [], [], rfl, rfl, rfl, rfl, by omega, rfl,
      by simp [histA], by simp [histB], rfl, by simp, rfl⟩
  | succ fuel ih =>
    intro s h1 h2
    have hg : proceed s = true := by simp [proceed]; omega
    obtain ⟨a, ha⟩ := Option.isSome_iff_exists.mp
      (hba1 s.player_a.history (s.current_turn + 1) (by omega))
    obtain ⟨b, hb⟩ := Option.isSome_iff_exists.mp
      (hbb1 (s.player_b.history ++ [Message.mk "user" a]) (s.current_turn + 1) (by omega))
    obtain ⟨t1, ht1, t1n, t1c, t1comp, t1rc, t1pa, t1pb, t1log, t1keys⟩ :=
      turn_ok_fields ba bb (logNextTurn { s with current_turn := s.current_turn + 1 })
        a b ha hb
    obtain ⟨x, hx⟩ := Option.isSome_iff_exists.mp
      (hba2 (t1.player_a.history ++ [Message.mk "user" probeQuestion]))
    obtain ⟨y, hy⟩ := Option.isSome_iff_exists.mp
      (hbb2 (t1.player_b.history ++ [Message.mk "user" probeQuestion]))
    obtain ⟨t2, ht2, t2n, t2c, t2comp, t2rc, t2pa, t2pb, t2log, t2keys⟩ :=
      probe_ok_fields ba bb t1 x y hx hy
    have t1n' : t1.n_turns = s.n_turns := t1n
    have t1c' : t1.current_turn = s.current_turn + 1 := t1c
    have t1comp' : t1.complete_turns = s.complete_turns + 1 := t1comp
    have t1rc' : t1.request_counts =
        incAt (incAt s.request_counts (s.current_turn + 1)) (s.current_turn + 1) := t1rc
    have t1pa' : t1.player_a = { s.player_a with history :=
        s.player_a.history ++ [Message.mk "assistant" a, Message.mk "user" b] } := t1pa
    have t1pb' : t1.player_b = { s.player_b with history :=
        s.player_b.history ++ [Message.mk "user" a, Message.mk "assistant" b] } := t1pb
    have t1log' : t1.log.map Event.typ =
        (s.log ++ [Event.mk "GM" "GM" "next turn" ""]).map Event.typ ++
        ["get message", "send message", "get message", "send message"] := t1log
    have t1keys' : t1.keys = s.keys := t1keys
    have t2n' : t2.n_turns = s.n_turns := by rw [t2n, t1n']
    have t2c' : t2.current_turn = s.current_turn + 1 := by rw [t2c, t1c']
    obtain ⟨s', as', bs', hplay, hlen1, hlen2, hn, hc, hcomp, hpa, hpb, hrc, hlog, hkeys⟩ :=
      ih t2 (by omega) (by omega)
    refine ⟨s', a :: as', b :: bs', ?_, by simp [hlen1], by simp [hlen2],
      ?_, ?_, ?_, ?_, ?_, ?_, ?_, ?_⟩
    · simp only [play_loop, hg, if_true, ht1, ht2]
      exact hplay
    · rw [hn, t2n']
    · rw [hc, t2c']; omega
    · rw [hcomp, t2comp, t1comp']; omega
    · rw [hpa, t2pa, t1pa']
      simp [histA]
    · rw [hpb, t2pb, t1pb']
      simp [histB]
    · rw [hrc, t2rc, t1rc', t2c']
      simp [addTwos]
    · rw [hlog, t2log, t1log']
      simp [cycleTypes, List.replicate_succ]
    · rw [hkeys, t2keys, t1keys']

theorem play_loop_not_proceed (ba bb : Backend) (fuel : Nat) (s : GState)
    (h : proceed s = false) : play_loop ba bb fuel s = Except.ok s := by
  cases fuel <;> simp [play_loop, h]


theorem exceptStep_ok (s : GState) (f : GState → Except GState GState) :
    exceptStep (Except.ok s) f = f s := rfl

theorem exceptStep_err (e : GState) (f : GState → Except GState GState) :
    exceptStep (Except.error e) f = Except.error e := rfl

theorem play_loop_add (ba bb : Backend) :
    ∀ a b s, play_loop ba bb (a + b) s =
      exceptStep (play_loop ba bb a s) (play_loop ba bb b) := by
  intro a
  induction a with
  | zero => intro b s; simp [play_loop, exceptStep_ok]
  | succ a ih =>
    intro b s
    by_cases hp : proceed s
    · rw [Nat.add_right_comm]
      simp only [play_loop, hp, if_true]
      split
      · rw [exceptStep_err]
      · split
        · rw [exceptStep_err]
        · rename_i s2 _ s3 _
          exact ih b s3
    · have h0 : proceed s = false := by simpa using hp
      rw [play_loop_not_proceed ba bb (a + 1 + b) s h0,
        play_loop_not_proceed ba bb (a + 1) s h0, exceptStep_ok,
        play_loop_not_proceed ba bb b s h0]

theorem turn_keys_stateOf (ba bb : Backend) (s : GState) :
    (stateOf (turn ba bb s)).keys = s.keys := by
  rcases hA : ba s.player_a.history (TurnArg.idx s.current_turn) with _ | a
  · rw [turn_err_a ba bb s hA]; rfl
  · rcases hB : bb (s.player_b.history ++ [Message.mk "user" a])
      (TurnArg.idx s.current_turn) with _ | b
    · rw [turn_err_b ba bb s a hA hB]; rfl
    · rw [turn_ok ba bb s a b hA hB]; rfl

theorem probe_keys_stateOf (ba bb : Backend) (s : GState) :
    (stateOf (probe ba bb s)).keys = s.keys := by
  rcases hA : ba (s.player_a.history ++ [Message.mk "user" probeQuestion])
    TurnArg.methodRef with _ | x
  · rw [probe_err_a ba bb s hA]; rfl
  · rcases hB : bb (s.player_b.history ++ [Message.mk "user" probeQuestion])
      TurnArg.methodRef with _ | y
    · rw [probe_err_b ba bb s x hA hB]; rfl
    · rw [probe_ok ba bb s x y hA hB]; rfl

theorem turn_rc_length_stateOf (ba bb : Backend) (s : GState) :
    (stateOf (turn ba bb s)).request_counts.length = s.request_counts.length := by
  rcases hA : ba s.player_a.history (TurnArg.idx s.current_turn) with _ | a
  · rw [turn_err_a ba bb s hA]; rfl
  · rcases hB : bb (s.player_b.history ++ [Message.mk "user" a])
      (TurnArg.idx s.current_turn) with _ | b
    · rw [turn_err_b ba bb s a hA hB]; simp [stateOf, incAt_length]
    · rw [turn_ok ba bb s a b hA hB]; simp [stateOf, incAt_length]

theorem probe_rc_stateOf (ba bb : Backend) (s : GState) :
    (stateOf (probe ba bb s)).request_counts = s.request_counts := by
  rcases hA : ba (s.player_a.history ++ [Message.mk "user" probeQuestion])
    TurnArg.methodRef with _ | x
  · rw [probe_err_a ba bb s hA]; rfl
  · rcases hB : bb (s.player_b.history ++ [Message.mk "user" probeQuestion])
      TurnArg.methodRef with _ | y
    · rw [probe_err_b ba bb s x hA hB]; rfl
    · rw [probe_ok ba bb s x y hA hB]; rfl

theorem play_loop_error_keys (ba bb : Backend) :
    ∀ fuel s e, play_loop ba bb fuel s = Except.error e → e.keys = s.keys := by
  intro fuel
  induction fuel with
  | zero => intro s e h; simp [play_loop] at h
  | succ fuel ih =>
    intro s e h
    by_cases hp : proceed s
    · simp only [play_loop, hp, if_true] at h
      split at h
      · rename_i e1 heq
        cases h
        have hk := turn_keys_stateOf ba bb
          (logNextTurn { s with current_turn := s.current_turn + 1 })
        rw [heq] at hk
        simp [stateOf, logNextTurn] at hk
        exact hk
      · rename_i s2 heq
        have hk2 := turn_keys_stateOf ba bb
          (logNextTurn { s with current_turn := s.current_turn + 1 })
        rw [heq] at hk2
        simp [stateOf, logNextTurn] at hk2
        split at h
        · rename_i e2 heq2
          cases h
          have hk := probe_keys_stateOf ba bb s2
          rw [heq2] at hk
          simp [stateOf] at hk
          rw [hk, hk2]
        · rename_i s3 heq2
          have hk := probe_keys_stateOf ba bb s2
          rw [heq2] at hk
          simp [stateOf] at hk
          rw [ih s3 e h, hk, hk2]
    · have h0 : proceed s = false := by simpa using hp
      rw [play_loop_not_proceed ba bb _ s h0] at h
      cases h

theorem play_error_keys (ba bb : Backend) (s e : GState)
    (h : play ba bb s = Except.error e) : e.keys = s.keys := by
  unfold play at h
  split at h
  · rename_i e1 heq
    cases h
    exact play_loop_error_keys ba bb _ s e heq
  · cases h

theorem incAt_append_cons (xs : List Nat) (y : Nat) (ys : List Nat) :
    incAt (xs ++ y :: ys) xs.length = xs ++ (y + 1) :: ys := by
  induction xs with
  | nil => rfl
  | cons x xs ih => simp [incAt, ih]

theorem addTwos_replicate_aux :
    ∀ (m : Nat) (xs : List Nat),
      addTwos (xs ++ List.replicate m 0) xs.length m = xs ++ List.replicate m 2 := by
  intro m
  induction m with
  | zero => intro xs; simp [addTwos]
  | succ m ih =>
    intro xs
    rw [List.replicate_succ]
    show addTwos (xs ++ 0 :: List.replicate m 0) xs.length (m + 1) = _
    rw [addTwos, incAt_append_cons]
    have h1 : incAt (xs ++ 1 :: List.replicate m 0) xs.length =
        xs ++ 2 :: List.replicate m 0 := incAt_append_cons xs 1 (List.replicate m 0)
    rw [h1]
    have h2 : xs ++ 2 :: List.replicate m 0 = (xs ++ [2]) ++ List.replicate m 0 := by
      simp
    have h3 : xs.length + 1 = (xs ++ [2]).length := by simp
    rw [h2, h3, ih (xs ++ [2])]
    simp [List.replicate_succ]

theorem addTwos_replicate (N : Nat) :
    addTwos (List.replicate (N + 1) 0) 1 N = 0 :: List.replicate N 2 := by
  have h := addTwos_replicate_aux N [0]
  simpa [List.replicate_succ] using h

theorem histA_nil : histA [] [] = [] := rfl

theorem histB_nil : histB [] [] = [] := rfl

theorem histA_cons (a b : String) (as bs : List String) :
    histA (a :: as) (b :: bs) =
      Message.mk "assistant" a :: Message.mk "user" b :: histA as bs := by
  simp [histA]

theorem histB_cons (a b : String) (as bs : List String) :
    histB (a :: as) (b :: bs) =
      Message.mk "user" a :: Message.mk "assistant" b :: histB as bs := by
  simp [histB]

theorem histA_roles :
    ∀ as bs : List String, as.length = bs.length →
      (histA as bs).map Message.role =
        (List.replicate as.length ["assistant", "user"]).flatten := by
  intro as
  induction as with
  | nil =>
    intro bs h
    cases bs with
    | nil => rfl
    | cons b bs => simp at h
  | cons a as ih =>
    intro bs h
    cases bs with
    | nil => simp at h
    | cons b bs =>
      simp only [histA_cons, List.map_cons, List.length_cons, List.replicate_succ,
        List.flatten_cons]
      rw [ih bs (by simpa using h)]
      rfl

theorem histB_roles :
    ∀ as bs : List String, as.length = bs.length →
      (histB as bs).map Message.role =
        (List.replicate as.length ["user", "assistant"]).flatten := by
  intro as
  induction as with
  | nil =>
    intro bs h
    cases bs with
    | nil => rfl
    | cons b bs => simp at h
  | cons a as ih =>
    intro bs h
    cases bs with
    | nil => simp at h
    | cons b bs =>
      simp only [histB_cons, List.map_cons, List.length_cons, List.replicate_succ,
        List.flatten_cons]
      rw [ih bs (by simpa using h)]
      rfl

theorem flatten_replicate_length {α : Type} (n : Nat) (l : List α) :
    (List.replicate n l).flatten.length = n * l.length := by
  induction n with
  | zero => simp
  | succ n ih => simp [List.replicate_succ, ih, Nat.succ_mul]; ring

theorem histA_length (as bs : List String) (h : as.length = bs.length) :
    (histA as bs).length = 2 * as.length := by
  have := histA_roles as bs h
  have hlen : ((histA as bs).map Message.role).length =
      ((List.replicate as.length ["assistant", "user"]).flatten).length := by rw [this]
  simpa [flatten_replicate_length, Nat.mul_comm] using hlen

theorem histB_length (as bs : List String) (h : as.length = bs.length) :
    (histB as bs).length = 2 * as.length := by
  have := histB_roles as bs h
  have hlen : ((histB as bs).map Message.role).length =
      ((List.replicate as.length ["user", "assistant"]).flatten).length := by rw [this]
  simpa [flatten_replicate_length, Nat.mul_comm] using hlen

theorem histB_get_even :
    ∀ (as : List String) (bs : List String) (i : Nat), as.length = bs.length →
      (histB as bs).get? (2 * i) = (as.get? i).map (fun c => Message.mk "user" c) := by
  intro as
  induction as with
  | nil =>
    intro bs i h
    cases bs with
    | nil => simp [histB_nil]
    | cons b bs => simp at h
  | cons a as ih =>
    intro bs i h
    cases bs with
    | nil => simp at h
    | cons b bs =>
      cases i with
      | zero => simp [histB_cons]
      | succ i =>
        have h2 : 2 * (i + 1) = 2 * i + 1 + 1 := by ring
        rw [h2, histB_cons]
        simp only [List.get?_cons_succ]
        exact ih bs i (by simpa using h)

theorem histB_get_odd :
    ∀ (as : List String) (bs : List String) (i : Nat), as.length = bs.length →
      (histB as bs).get? (2 * i + 1) =
        (bs.get? i).map (fun c => Message.mk "assistant" c) := by
  intro as
  induction as with
  | nil =>
    intro bs i h
    cases bs with
    | nil => simp [histB_nil]
    | cons b bs => simp at h
  | cons a as ih =>
    intro bs i h
    cases bs with
    | nil => simp at h
    | cons b bs =>
      cases i with
      | zero => simp [histB_cons]
      | succ i =>
        have h2 : 2 * (i + 1) + 1 = 2 * i + 1 + 1 + 1 := by ring
        rw [h2, histB_cons]
        simp only [List.get?_cons_succ]
        exact ih bs i (by simpa using h)

theorem histA_get_even :
    ∀ (as : List String) (bs : List String) (i : Nat), as.length = bs.length →
      (histA as bs).get? (2 * i) =
        (as.get? i).map (fun c => Message.mk "assistant" c) := by
  intro as
  induction as with
  | nil =>
    intro bs i h
    cases bs with
    | nil => simp [histA_nil]
    | cons b bs => simp at h
  | cons a as ih =>
    intro bs i h
    cases bs with
    | nil => simp at h
    | cons b bs =>
      cases i with
      | zero => simp [histA_cons]
      | succ i =>
        have h2 : 2 * (i + 1) = 2 * i + 1 + 1 := by ring
        rw [h2, histA_cons]
        simp only [List.get?_cons_succ]
        exact ih bs i (by simpa using h)

theorem histA_get_odd :
    ∀ (as : List String) (bs : List String) (i : Nat), as.length = bs.length →
      (histA as bs).get? (2 * i + 1) =
        (bs.get? i).map (fun c => Message.mk "user" c) := by
  intro as
  induction as with
  | nil =>
    intro bs i h
    cases bs with
    | nil => simp [histA_nil]
    | cons b bs => simp at h
  | cons a as ih =>
    intro bs i h
    cases bs with
    | nil => simp at h
    | cons b bs =>
      cases i with
      | zero => simp [histA_cons]
      | succ i =>
        have h2 : 2 * (i + 1) + 1 = 2 * i + 1 + 1 + 1 := by ring
        rw [h2, histA_cons]
        simp only [List.get?_cons_succ]
        exact ih bs i (by simpa using h)

theorem mem_flatten_replicate {α : Type} (x : α) :
    ∀ (n : Nat) (l : List α), x ∈ (List.replicate n l).flatten → x ∈ l := by
  intro n
  induction n with
  | zero => intro l h; simp at h
  | succ n ih =>
    intro l h
    rw [List.replicate_succ, List.flatten_cons] at h
    rcases List.mem_append.mp h with h1 | h2
    · exact h1
    · exact ih l h2

theorem countType_eq (ty : String) (log : List Event) :
    countType ty log = ((log.map Event.typ).filter (fun t => t = ty)).length := by
  unfold countType
  induction log with
  | nil => rfl
  | cons ev l ih =>
    by_cases h : ev.typ = ty <;> simp [List.filter_cons, h, ih]

theorem filter_flatten_replicate_length (p : String → Bool) :
    ∀ (n : Nat) (l : List String),
      ((List.replicate n l).flatten.filter p).length = n * (l.filter p).length := by
  intro n
  induction n with
  | zero => intro l; simp
  | succ n ih =>
    intro l
    rw [List.replicate_succ, List.flatten_cons, List.filter_append,
      List.length_append, ih]
    ring

theorem finishPlay_log (s : GState) :
    (finishPlay s).log = s.log ++
      (if s.complete_turns = s.n_turns
        then [Event.mk "GM" "GM" "info" "game successful"] else []) ++
      [Event.mk "GM" "GM" "info" "end game"] := by
  unfold finishPlay logEvent logKey
  by_cases h : s.complete_turns = s.n_turns <;> simp [h]

theorem finishPlay_keys (s : GState) :
    (finishPlay s).keys = s.keys ++ [("Played turns", s.current_turn)] := by
  unfold finishPlay logEvent logKey
  by_cases h : s.complete_turns = s.n_turns <;> simp [h]

theorem finishPlay_fields (s : GState) :
    (finishPlay s).current_turn = s.current_turn ∧
    (finishPlay s).complete_turns = s.complete_turns ∧
    (finishPlay s).n_turns = s.n_turns ∧
    (finishPlay s).player_a = s.player_a ∧
    (finishPlay s).player_b = s.player_b ∧
    (finishPlay s).request_counts = s.request_counts := by
  unfold finishPlay logEvent logKey
  by_cases h : s.complete_turns = s.n_turns <;> simp [h]

theorem play_ok_of_loop (ba bb : Backend) (s s1 : GState)
    (h : play_loop ba bb (s.n_turns - s.current_turn) s = Except.ok s1) :
    play ba bb s = Except.ok (finishPlay s1) := by
  unfold play
  rw [h]

theorem rolesAlternating_a_pattern :
    ∀ N : Nat, rolesAlternating
      ("user" :: (List.replicate N ["assistant", "user"]).flatten) = true := by
  intro N
  induction N with
  | zero => rfl
  | succ N ih =>
    rw [List.replicate_succ, List.flatten_cons]
    show rolesAlternating ("user" :: "assistant" :: "user" ::
      (List.replicate N ["assistant", "user"]).flatten) = true
    simp only [rolesAlternating] at ih ⊢
    simp [ih]

theorem rolesAlternating_b_false (N : Nat) :
    rolesAlternating
      ("user" :: (List.replicate (N + 1) ["user", "assistant"]).flatten) = false := by
  rw [List.replicate_succ, List.flatten_cons]
  show rolesAlternating ("user" :: "user" :: _) = false
  simp [rolesAlternating]

theorem benign_setupTypes : ∀ t ∈ setupTypes, t ≠ "info" ∧ t ≠ "error" := by decide

theorem benign_cycleTypes : ∀ t ∈ cycleTypes, t ≠ "info" ∧ t ≠ "error" := by decide

theorem play_setup_char (N : Nat) (ba bb : Backend)
    (hba : ∀ h t, (ba h t).isSome = true) (hbb : ∀ h t, (bb h t).isSome = true)
    (model_a model_b context : String) (subjects e1 e2 : List String)
    (pa pb : String) (gid : Nat) :
    ∃ s1 as bs,
      play ba bb (setup model_a model_b context subjects e1 e2 N pa pb gid) =
        Except.ok (finishPlay s1) ∧
      as.length = N ∧ bs.length = N ∧
      s1.n_turns = N ∧ s1.current_turn = N ∧ s1.complete_turns = N ∧
      s1.player_a = ⟨model_a, "A", context, subjects, e1, e2,
        Message.mk "user" pa :: histA as bs⟩ ∧
      s1.player_b = ⟨model_b, "B", context, subjects, e1, e2,
        Message.mk "user" pb :: histB as bs⟩ ∧
      s1.request_counts = 0 :: List.replicate N 2 ∧
      s1.log.map Event.typ = setupTypes ++ (List.replicate N cycleTypes).flatten ∧
      s1.keys = [("n_turns", N)] := by
  obtain ⟨s1, as, bs, hloop, hl1, hl2, hn, hc, hcomp, hpa, hpb, hrc, hlog, hkeys⟩ :=
    play_loop_ok ba bb N
      (fun h i _ => hba h (TurnArg.idx i)) (fun h => hba h TurnArg.methodRef)
      (fun h i _ => hbb h (TurnArg.idx i)) (fun h => hbb h TurnArg.methodRef)
      N (setup model_a model_b context subjects e1 e2 N pa pb gid)
      (by simp [setup_state]) (by simp [setup_state])
  refine ⟨s1, as, bs, play_ok_of_loop ba bb _ s1 hloop, hl1, hl2, hn, ?_, ?_, ?_, ?_, ?_, ?_, hkeys⟩
  · have hc' : s1.current_turn = 0 + N := hc
    omega
  · have hcomp' : s1.complete_turns = 0 + N := hcomp
    omega
  · have hpa' : s1.player_a = ⟨model_a, "A", context, subjects, e1, e2,
      Message.mk "user" pa :: histA as bs⟩ := hpa
    exact hpa'
  · have hpb' : s1.player_b = ⟨model_b, "B", context, subjects, e1, e2,
      Message.mk "user" pb :: histB as bs⟩ := hpb
    exact hpb'
  · have hrc' : s1.request_counts = addTwos (List.replicate (N + 1) 0) (0 + 1) N := hrc
    rw [Nat.zero_add] at hrc'
    rw [hrc', addTwos_replicate]
  · have hlog' : s1.log.map Event.typ =
      setupTypes ++ (List.replicate N cycleTypes).flatten := hlog
    exact hlog'

/-- C3: for every dialogue state and every pair of backend replies (and
also when a probe backend call fails), executing the probe step leaves
both players' real histories unchanged — the probe question and probe
response are never appended to either real history. -/
theorem probe_never_mutates_histories (ba bb : Backend) (s : GState) :
    (stateOf (probe ba bb s)).player_a.history = s.player_a.history ∧
    (stateOf (probe ba bb s)).player_b.history = s.player_b.history := by
  rcases hA : ba (s.player_a.history ++ [Message.mk "user" probeQuestion])
    TurnArg.methodRef with _ | x
  · rw [probe_err_a ba bb s hA]; exact ⟨rfl, rfl⟩
  · rcases hB : bb (s.player_b.history ++ [Message.mk "user" probeQuestion])
      TurnArg.methodRef with _ | y
    · rw [probe_err_b ba bb s x hA hB]; exact ⟨rfl, rfl⟩
    · rw [probe_ok ba bb s x y hA hB]; exact ⟨rfl, rfl⟩

/-- C10: at setup the two Speakers are constructed with identical private
context — the same subjects list and the same two fact lists (and the same
domain context string) are given to both player A and player B; the
handles differ only in their identity tag and backend (model) reference. -/
theorem setup_players_identical_context (model_a model_b context : String)
    (subjects entity1_info entity2_info : List String) (n_turns : Nat)
    (pa pb : String) (gid : Nat) :
    (setup model_a model_b context subjects entity1_info entity2_info
        n_turns pa pb gid).player_a.subjects = subjects ∧
    (setup model_a model_b context subjects entity1_info entity2_info
        n_turns pa pb gid).player_b.subjects = subjects ∧
    (setup model_a model_b context subjects entity1_info entity2_info
        n_turns pa pb gid).player_a.entity1_info = entity1_info ∧
    (setup model_a model_b context subjects entity1_info entity2_info
        n_turns pa pb gid).player_b.entity1_info = entity1_info ∧
    (setup model_a model_b context subjects entity1_info entity2_info
        n_turns pa pb gid).player_a.entity2_info = entity2_info ∧
    (setup model_a model_b context subjects entity1_info entity2_info
        n_turns pa pb gid).player_b.entity2_info = entity2_info ∧
    (setup model_a model_b context subjects entity1_info entity2_info
        n_turns pa pb gid).player_a.context = context ∧
    (setup model_a model_b context subjects entity1_info entity2_info
        n_turns pa pb gid).player_b.context = context ∧
    (setup model_a model_b context subjects entity1_info entity2_info
        n_turns pa pb gid).player_a.player = "A" ∧
    (setup model_a model_b context subjects entity1_info entity2_info
        n_turns pa pb gid).player_b.player = "B" ∧
    (setup model_a model_b context subjects entity1_info entity2_info
        n_turns pa pb gid).player_a.model_name = model_a ∧
    (setup model_a model_b context subjects entity1_info entity2_info
        n_turns pa pb gid).player_b.model_name = model_b :=
  ⟨rfl, rfl, rfl, rfl, rfl, rfl, rfl, rfl, rfl, rfl, rfl, rfl⟩

/-- C5 (evidence): in a one-turn episode the recorded backend invocations
are: the two in-turn calls with the integer index 1, then the two probe
calls carrying the bound-method reference self.turn instead of any
integer turn index. -/
theorem probe_turn_arg_is_method_reference :
    (stateOf (play cBack cBack cSetup1)).calls =
      [CallRec.mk "a" (TurnArg.idx 1), CallRec.mk "b" (TurnArg.idx 1),
       CallRec.mk "a" TurnArg.methodRef, CallRec.mk "b" TurnArg.methodRef] ∧
    CallRec.mk "a" TurnArg.methodRef ∈ (stateOf (play cBack cBack cSetup1)).calls ∧
    ∀ i : Nat, TurnArg.methodRef ≠ TurnArg.idx i :=
  ⟨by decide, by decide, fun i h => nomatch h⟩

/-- C1 (counterexample): with turn_budget 0 the setup step returns
normally and play immediately finalizes: the zero-turn episode runs to
completion, logging both 'game successful' and 'end game'. -/
theorem setup_zero_budget_counterexample :
    play cBack cBack cSetup0 = Except.ok (stateOf (play cBack cBack cSetup0)) ∧
    (stateOf (play cBack cBack cSetup0)).complete_turns = 0 ∧
    (stateOf (play cBack cBack cSetup0)).current_turn = 0 ∧
    "game successful" ∈ (stateOf (play cBack cBack cSetup0)).log.map Event.content ∧
    "end game" ∈ (stateOf (play cBack cBack cSetup0)).log.map Event.content := by
  decide

/-- C1 (amended): setup performs no validation of the turn budget: for
every choice of backends and instance data, setup with n_turns = 0
returns normally and play completes at once with zero turns played,
logging 'game successful' (because complete_turns = 0 = n_turns) and
'end game'. -/
theorem setup_zero_budget_runs_to_completion (ba bb : Backend)
    (model_a model_b context : String) (subjects e1 e2 : List String)
    (pa pb : String) (gid : Nat) :
    ∃ s', play ba bb (setup model_a model_b context subjects e1 e2 0 pa pb gid) =
        Except.ok s' ∧
      s'.complete_turns = 0 ∧
      s'.current_turn = 0 ∧
      "game successful" ∈ s'.log.map Event.content ∧
      "end game" ∈ s'.log.map Event.content := by
  refine ⟨finishPlay (setup model_a model_b context subjects e1 e2 0 pa pb gid),
    play_ok_of_loop ba bb _ _ rfl, ?_, ?_, ?_, ?_⟩
  · rw [(finishPlay_fields _).2.1, setup_state]
  · rw [(finishPlay_fields _).1, setup_state]
  · rw [finishPlay_log, setup_state]
    simp
  · rw [finishPlay_log, setup_state]
    simp

/-- C6: for every turn budget N ≥ 1 and all total backends (arbitrary
reply texts, including replies containing "FAILED."), play terminates
normally, executes exactly N turn-plus-probe cycles (N completed turns,
2N probe questions, N+1 next-turn markers) and stops with
current_turn = N; no reply content causes an early exit. -/
theorem play_executes_exactly_n_cycles (N : Nat) (hN : 1 ≤ N) (ba bb : Backend)
    (hba : ∀ h t, (ba h t).isSome = true) (hbb : ∀ h t, (bb h t).isSome = true)
    (model_a model_b context : String) (subjects e1 e2 : List String)
    (pa pb : String) (gid : Nat) :
    ∃ s', play ba bb (setup model_a model_b context subjects e1 e2 N pa pb gid) =
        Except.ok s' ∧
      s'.current_turn = N ∧
      s'.complete_turns = N ∧
      countType "probe question" s'.log = 2 * N ∧
      countType "next turn" s'.log = N + 1 := by
  obtain ⟨s1, as, bs, hplay, hl1, hl2, hn, hc, hcomp, hpa, hpb, hrc, hlog, hkeys⟩ :=
    play_setup_char N ba bb hba hbb model_a model_b context subjects e1 e2 pa pb gid
  have hif : s1.complete_turns = s1.n_turns := by rw [hcomp, hn]
  refine ⟨finishPlay s1, hplay, ?_, ?_, ?_, ?_⟩
  · rw [(finishPlay_fields s1).1, hc]
  · rw [(finishPlay_fields s1).2.1, hcomp]
  · rw [countType_eq, finishPlay_log, hif]
    simp [List.map_append, List.filter_append, hlog, setupTypes,
      filter_flatten_replicate_length, cycleTypes]
    omega
  · rw [countType_eq, finishPlay_log, hif]
    simp [List.map_append, List.filter_append, hlog, setupTypes,
      filter_flatten_replicate_length, cycleTypes]

theorem play_executes_exactly_n_cycles_witness :
    ∃ s', play cBack cBack (setup "m1" "m2" "ctx" ["s1", "s2"] ["f1"] ["f2"] 1
        "pa" "pb" 0) = Except.ok s' ∧
      s'.current_turn = 1 ∧
      s'.complete_turns = 1 ∧
      countType "probe question" s'.log = 2 * 1 ∧
      countType "next turn" s'.log = 1 + 1 :=
  play_executes_exactly_n_cycles 1 (by decide) cBack cBack
    (fun h t => rfl) (fun h t => rfl) "m1" "m2" "ctx" ["s1", "s2"] ["f1"] ["f2"]
    "pa" "pb" 0

/-- C4 (counterexample): in a completed one-turn episode, player B's
history has the claimed length 3 but its role tags are
user, user, assistant — the initial prompt and A's relayed reply are both
tagged "user", so the role tags do not alternate. -/
theorem history_roles_counterexample :
    (stateOf (play cBack cBack cSetup1)).player_b.history.map Message.role =
      ["user", "user", "assistant"] ∧
    rolesAlternating
      ((stateOf (play cBack cBack cSetup1)).player_b.history.map Message.role) = false ∧
    (stateOf (play cBack cBack cSetup1)).player_b.history.length = 2 * 1 + 1 := by
  decide

/-- C4 (amended): for every N ≥ 1 and all total backends, after a
completed run current_turn = N, complete_turns = N, and each history has
exactly 2N+1 messages; player A's role tags alternate starting with
"user", while player B's start with two consecutive "user" tags (initial
prompt, then A's first relayed reply) followed by alternating
assistant/user — so B's history does not alternate. -/
theorem play_history_shape (N : Nat) (hN : 1 ≤ N) (ba bb : Backend)
    (hba : ∀ h t, (ba h t).isSome = true) (hbb : ∀ h t, (bb h t).isSome = true)
    (model_a model_b context : String) (subjects e1 e2 : List String)
    (pa pb : String) (gid : Nat) :
    ∃ s', play ba bb (setup model_a model_b context subjects e1 e2 N pa pb gid) =
        Except.ok s' ∧
      s'.current_turn = N ∧
      s'.complete_turns = N ∧
      s'.player_a.history.length = 2 * N + 1 ∧
      s'.player_b.history.length = 2 * N + 1 ∧
      s'.player_a.history.map Message.role =
        "user" :: (List.replicate N ["assistant", "user"]).flatten ∧
      s'.player_b.history.map Message.role =
        "user" :: (List.replicate N ["user", "assistant"]).flatten ∧
      rolesAlternating (s'.player_a.history.map Message.role) = true ∧
      rolesAlternating (s'.player_b.history.map Message.role) = false := by
  obtain ⟨M, rfl⟩ : ∃ M, N = M + 1 := ⟨N - 1, by omega⟩
  obtain ⟨s1, as, bs, hplay, hl1, hl2, hn, hc, hcomp, hpa, hpb, hrc, hlog, hkeys⟩ :=
    play_setup_char (M + 1) ba bb hba hbb model_a model_b context subjects e1 e2 pa pb gid
  have hfa : (finishPlay s1).player_a = s1.player_a := (finishPlay_fields s1).2.2.2.1
  have hfb : (finishPlay s1).player_b = s1.player_b := (finishPlay_fields s1).2.2.2.2.1
  have hab : as.length = bs.length := by rw [hl1, hl2]
  have hlenA : (histA as bs).length = 2 * (M + 1) := by
    rw [histA_length as bs hab, hl1]
  have hlenB : (histB as bs).length = 2 * (M + 1) := by
    rw [histB_length as bs hab, hl1]
  have hrolesA : (histA as bs).map Message.role =
      (List.replicate (M + 1) ["assistant", "user"]).flatten := by
    rw [histA_roles as bs hab, hl1]
  have hrolesB : (histB as bs).map Message.role =
      (List.replicate (M + 1) ["user", "assistant"]).flatten := by
    rw [histB_roles as bs hab, hl1]
  refine ⟨finishPlay s1, hplay, ?_, ?_, ?_, ?_, ?_, ?_, ?_, ?_⟩
  · rw [(finishPlay_fields s1).1, hc]
  · rw [(finishPlay_fields s1).2.1, hcomp]
  · rw [hfa, hpa]
    simp [hlenA]
  · rw [hfb, hpb]
    simp [hlenB]
  · rw [hfa, hpa]
    simp [hrolesA]
  · rw [hfb, hpb]
    simp [hrolesB]
  · rw [hfa, hpa]
    simp only [List.map_cons]
    rw [hrolesA]
    exact rolesAlternating_a_pattern (M + 1)
  · rw [hfb, hpb]
    simp only [List.map_cons]
    rw [hrolesB]
    exact rolesAlternating_b_false M

theorem play_history_shape_witness :
    ∃ s', play cBack cBack (setup "m1" "m2" "ctx" ["s1", "s2"] ["f1"] ["f2"] 1
        "pa" "pb" 0) = Except.ok s' ∧
      s'.current_turn = 1 ∧
      s'.complete_turns = 1 ∧
      s'.player_a.history.length = 2 * 1 + 1 ∧
      s'.player_b.history.length = 2 * 1 + 1 ∧
      s'.player_a.history.map Message.role =
        "user" :: (List.replicate 1 ["assistant", "user"]).flatten ∧
      s'.player_b.history.map Message.role =
        "user" :: (List.replicate 1 ["user", "assistant"]).flatten ∧
      rolesAlternating (s'.player_a.history.map Message.role) = true ∧
      rolesAlternating (s'.player_b.history.map Message.role) = false :=
  play_history_shape 1 (by decide) cBack cBack (fun h t => rfl) (fun h t => rfl)
    "m1" "m2" "ctx" ["s1", "s2"] ["f1"] ["f2"] "pa" "pb" 0

/-- C7: request_counts is created with length N+1 by setup and its length
is preserved by every turn and probe step (probe does not touch it at
all); after a completed run it equals 0 :: replicate N 2, so index 0 is 0
and the entries at indices 1..N sum to exactly 2N — two counted backend
calls per turn (the probe calls are not counted). -/
theorem request_counts_accounting (N : Nat) (hN : 1 ≤ N) (ba bb : Backend)
    (hba : ∀ h t, (ba h t).isSome = true) (hbb : ∀ h t, (bb h t).isSome = true)
    (model_a model_b context : String) (subjects e1 e2 : List String)
    (pa pb : String) (gid : Nat) :
    (setup model_a model_b context subjects e1 e2 N pa pb gid).request_counts.length
        = N + 1 ∧
    (∀ s : GState,
      (stateOf (turn ba bb s)).request_counts.length = s.request_counts.length) ∧
    (∀ s : GState, (stateOf (probe ba bb s)).request_counts = s.request_counts) ∧
    ∃ s', play ba bb (setup model_a model_b context subjects e1 e2 N pa pb gid) =
        Except.ok s' ∧
      s'.request_counts = 0 :: List.replicate N 2 ∧
      s'.request_counts.length = N + 1 ∧
      s'.request_counts.head? = some 0 ∧
      s'.request_counts.tail.sum = 2 * N := by
  refine ⟨by simp [setup_state], turn_rc_length_stateOf ba bb, probe_rc_stateOf ba bb, ?_⟩
  obtain ⟨s1, as, bs, hplay, hl1, hl2, hn, hc, hcomp, hpa, hpb, hrc, hlog, hkeys⟩ :=
    play_setup_char N ba bb hba hbb model_a model_b context subjects e1 e2 pa pb gid
  have hfrc : (finishPlay s1).request_counts = s1.request_counts :=
    (finishPlay_fields s1).2.2.2.2.2
  refine ⟨finishPlay s1, hplay, ?_, ?_, ?_, ?_⟩
  · rw [hfrc, hrc]
  · rw [hfrc, hrc]; simp
  · rw [hfrc, hrc]; rfl
  · rw [hfrc, hrc]
    simp [List.sum_replicate, smul_eq_mul, Nat.mul_comm]

theorem request_counts_accounting_witness :
    (setup "m1" "m2" "ctx" ["s1", "s2"] ["f1"] ["f2"] 1 "pa" "pb" 0).request_counts.length
        = 1 + 1 ∧
    (∀ s : GState,
      (stateOf (turn cBack cBack s)).request_counts.length = s.request_counts.length) ∧
    (∀ s : GState, (stateOf (probe cBack cBack s)).request_counts = s.request_counts) ∧
    ∃ s', play cBack cBack (setup "m1" "m2" "ctx" ["s1", "s2"] ["f1"] ["f2"] 1
        "pa" "pb" 0) = Except.ok s' ∧
      s'.request_counts = 0 :: List.replicate 1 2 ∧
      s'.request_counts.length = 1 + 1 ∧
      s'.request_counts.head? = some 0 ∧
      s'.request_counts.tail.sum = 2 * 1 :=
  request_counts_accounting 1 (by decide) cBack cBack (fun h t => rfl)
    (fun h t => rfl) "m1" "m2" "ctx" ["s1", "s2"] ["f1"] ["f2"] "pa" "pb" 0

/-- C9: in every completed episode the relay ordering is causal in both
histories: writing as/bs for the per-turn replies of A and B and u = t-1
for turn t, B's history places A's relayed turn-t reply at index 2u+1
(role "user"), strictly after B's own previous reply (index 2u, an
"assistant" entry for u ≥ 1 by the same formula at u-1) and strictly
before B's turn-t reply at index 2u+2; symmetrically A's history places
B's relayed turn-t reply at index 2u+2, between A's turn-t reply (index
2u+1) and A's turn-(t+1) reply (index 2u+3). -/
theorem relay_causal_order (N : Nat) (hN : 1 ≤ N) (ba bb : Backend)
    (hba : ∀ h t, (ba h t).isSome = true) (hbb : ∀ h t, (bb h t).isSome = true)
    (model_a model_b context : String) (subjects e1 e2 : List String)
    (pa pb : String) (gid : Nat) :
    ∃ (s' : GState) (as bs : List String),
      play ba bb (setup model_a model_b context subjects e1 e2 N pa pb gid) =
        Except.ok s' ∧
      as.length = N ∧ bs.length = N ∧
      ∀ u, u < N →
        s'.player_b.history.get? (2 * u + 1) =
          (as.get? u).map (fun c => Message.mk "user" c) ∧
        s'.player_b.history.get? (2 * u + 2) =
          (bs.get? u).map (fun c => Message.mk "assistant" c) ∧
        s'.player_a.history.get? (2 * u + 1) =
          (as.get? u).map (fun c => Message.mk "assistant" c) ∧
        s'.player_a.history.get? (2 * u + 2) =
          (bs.get? u).map (fun c => Message.mk "user" c) ∧
        2 * u < 2 * u + 1 ∧ 2 * u + 1 < 2 * u + 2 := by
  obtain ⟨s1, as, bs, hplay, hl1, hl2, hn, hc, hcomp, hpa, hpb, hrc, hlog, hkeys⟩ :=
    play_setup_char N ba bb hba hbb model_a model_b context subjects e1 e2 pa pb gid
  have hfa : (finishPlay s1).player_a = s1.player_a := (finishPlay_fields s1).2.2.2.1
  have hfb : (finishPlay s1).player_b = s1.player_b := (finishPlay_fields s1).2.2.2.2.1
  have hab : as.length = bs.length := by rw [hl1, hl2]
  have h22 : ∀ u : Nat, 2 * u + 2 = 2 * u + 1 + 1 := fun u => by omega
  refine ⟨finishPlay s1, as, bs, hplay, hl1, hl2, ?_⟩
  intro u hu
  refine ⟨?_, ?_, ?_, ?_, by omega, by omega⟩
  · rw [hfb, hpb]
    simp only [List.get?_cons_succ]
    exact histB_get_even as bs u hab
  · rw [hfb, hpb, h22 u]
    simp only [List.get?_cons_succ]
    exact histB_get_odd as bs u hab
  · rw [hfa, hpa]
    simp only [List.get?_cons_succ]
    exact histA_get_even as bs u hab
  · rw [hfa, hpa, h22 u]
    simp only [List.get?_cons_succ]
    exact histA_get_odd as bs u hab

theorem relay_causal_order_witness :
    ∃ (s' : GState) (as bs : List String),
      play cBack cBack (setup "m1" "m2" "ctx" ["s1", "s2"] ["f1"] ["f2"] 1
        "pa" "pb" 0) = Except.ok s' ∧
      as.length = 1 ∧ bs.length = 1 ∧
      ∀ u, u < 1 →
        s'.player_b.history.get? (2 * u + 1) =
          (as.get? u).map (fun c => Message.mk "user" c) ∧
        s'.player_b.history.get? (2 * u + 2) =
          (bs.get? u).map (fun c => Message.mk "assistant" c) ∧
        s'.player_a.history.get? (2 * u + 1) =
          (as.get? u).map (fun c => Message.mk "assistant" c) ∧
        s'.player_a.history.get? (2 * u + 2) =
          (bs.get? u).map (fun c => Message.mk "user" c) ∧
        2 * u < 2 * u + 1 ∧ 2 * u + 1 < 2 * u + 2 :=
  relay_causal_order 1 (by decide) cBack cBack (fun h t => rfl) (fun h t => rfl)
    "m1" "m2" "ctx" ["s1", "s2"] ["f1"] ["f2"] "pa" "pb" 0

/-- C2 (counterexample): with a backend fault on turn 2 of 3 the episode
aborts after turn 1 completes (complete_turns = 1) and no 'game
successful' event is logged, but — contrary to the claim — no 'end game'
event and no error-tagged event appear in the log either: the exception
escapes before any further logging. -/
theorem backend_fault_counterexample :
    play cFailBa cBack cSetup3 = Except.error (stateOf (play cFailBa cBack cSetup3)) ∧
    (stateOf (play cFailBa cBack cSetup3)).complete_turns = 1 ∧
    "game successful" ∉ (stateOf (play cFailBa cBack cSetup3)).log.map Event.content ∧
    "end game" ∉ (stateOf (play cFailBa cBack cSetup3)).log.map Event.content ∧
    (∀ ev ∈ (stateOf (play cFailBa cBack cSetup3)).log, ev.typ ≠ "error") := by
  decide

/-- C2 (amended): if player A's backend raises on the integer turn index k
(1 ≤ k < N) while succeeding on every earlier turn and every probe, the
episode aborts during turn k with complete_turns = k-1 and current_turn =
k; no 'game successful' event is logged, and also no 'end game' event and
no error-tagged event: the log holds only the events written before the
failing call, and finalization (the 'Played turns' key) never runs. -/
theorem play_aborts_without_logging (N k : Nat) (hk1 : 1 ≤ k) (hkN : k < N)
    (ba bb : Backend)
    (hba1 : ∀ h i, i < k → (ba h (TurnArg.idx i)).isSome = true)
    (hba2 : ∀ h, (ba h TurnArg.methodRef).isSome = true)
    (hbaF : ∀ h, ba h (TurnArg.idx k) = none)
    (hbb1 : ∀ h i, i < k → (bb h (TurnArg.idx i)).isSome = true)
    (hbb2 : ∀ h, (bb h TurnArg.methodRef).isSome = true)
    (model_a model_b context : String) (subjects e1 e2 : List String)
    (pa pb : String) (gid : Nat) :
    ∃ e, play ba bb (setup model_a model_b context subjects e1 e2 N pa pb gid) =
        Except.error e ∧
      e.complete_turns = k - 1 ∧
      e.current_turn = k ∧
      (∀ ev ∈ e.log, ev.typ ≠ "info" ∧ ev.typ ≠ "error") ∧
      "Played turns" ∉ e.keys.map Prod.fst := by
  obtain ⟨s1, as, bs, hloop, hl1, hl2, hn, hc, hcomp, hpa, hpb, hrc, hlog, hkeys⟩ :=
    play_loop_ok ba bb (k - 1)
      (fun h i hi => hba1 h i (by omega)) hba2
      (fun h i hi => hbb1 h i (by omega)) hbb2
      (k - 1) (setup model_a model_b context subjects e1 e2 N pa pb gid)
      (by simp [setup_state]; omega) (by simp [setup_state])
  have hc' : s1.current_turn = k - 1 := by
    have h0 : s1.current_turn = 0 + (k - 1) := hc
    omega
  have hn' : s1.n_turns = N := hn
  have hcomp' : s1.complete_turns = k - 1 := by
    have h0 : s1.complete_turns = 0 + (k - 1) := hcomp
    omega
  have hkeys' : s1.keys = [("n_turns", N)] := hkeys
  have hlog' : s1.log.map Event.typ =
      setupTypes ++ (List.replicate (k - 1) cycleTypes).flatten := hlog
  have hguard : proceed s1 = true := by simp [proceed]; omega
  have hcurr1 : s1.current_turn + 1 = k := by omega
  have hfail : ba (logNextTurn { s1 with current_turn := s1.current_turn + 1 }).player_a.history
      (TurnArg.idx (logNextTurn { s1 with current_turn := s1.current_turn + 1 }).current_turn)
      = none := by
    show ba s1.player_a.history (TurnArg.idx (s1.current_turn + 1)) = none
    rw [hcurr1]
    exact hbaF s1.player_a.history
  have hturn := turn_err_a ba bb
    (logNextTurn { s1 with current_turn := s1.current_turn + 1 }) hfail
  have hstep : play_loop ba bb ((N - k) + 1) s1 = Except.error
      { logNextTurn { s1 with current_turn := s1.current_turn + 1 } with
        calls := (logNextTurn { s1 with current_turn := s1.current_turn + 1 }).calls ++
          [⟨"a", TurnArg.idx
            (logNextTurn { s1 with current_turn := s1.current_turn + 1 }).current_turn⟩] } := by
    simp only [play_loop, hguard, if_true, hturn]
  have hfuelN : (k - 1) + ((N - k) + 1) = N := by omega
  have hloopN : play_loop ba bb ((k - 1) + ((N - k) + 1))
      (setup model_a model_b context subjects e1 e2 N pa pb gid) = Except.error
      { logNextTurn { s1 with current_turn := s1.current_turn + 1 } with
        calls := (logNextTurn { s1 with current_turn := s1.current_turn + 1 }).calls ++
          [⟨"a", TurnArg.idx
            (logNextTurn { s1 with current_turn := s1.current_turn + 1 }).current_turn⟩] } := by
    rw [play_loop_add, hloop, exceptStep_ok, hstep]
  rw [hfuelN] at hloopN
  refine ⟨{ logNextTurn { s1 with current_turn := s1.current_turn + 1 } with
      calls := (logNextTurn { s1 with current_turn := s1.current_turn + 1 }).calls ++
        [⟨"a", TurnArg.idx
          (logNextTurn { s1 with current_turn := s1.current_turn + 1 }).current_turn⟩] },
    ?_, ?_, ?_, ?_, ?_⟩
  · unfold play
    have hred : (setup model_a model_b context subjects e1 e2 N pa pb gid).n_turns -
        (setup model_a model_b context subjects e1 e2 N pa pb gid).current_turn = N := rfl
    rw [hred, hloopN]
  · show s1.complete_turns = k - 1
    exact hcomp'
  · show s1.current_turn + 1 = k
    exact hcurr1
  · have hElog : (s1.log ++ [Event.mk "GM" "GM" "next turn" ""]).map Event.typ =
        setupTypes ++ (List.replicate (k - 1) cycleTypes).flatten ++ ["next turn"] := by
      rw [List.map_append, hlog']
      rfl
    intro ev hev
    have hmem : ev.typ ∈ (s1.log ++ [Event.mk "GM" "GM" "next turn" ""]).map Event.typ :=
      List.mem_map_of_mem Event.typ hev
    rw [hElog] at hmem
    rcases List.mem_append.mp hmem with hmem1 | hmem2
    · rcases List.mem_append.mp hmem1 with hmem3 | hmem4
      · exact benign_setupTypes ev.typ hmem3
      · exact benign_cycleTypes ev.typ (mem_flatten_replicate ev.typ (k - 1) cycleTypes hmem4)
    · have hjt : ev.typ = "next turn" := by simpa using hmem2
      rw [hjt]
      exact ⟨by decide, by decide⟩
  · show "Played turns" ∉ s1.keys.map Prod.fst
    rw [hkeys']
    simp

theorem play_aborts_without_logging_witness :
    ∃ e, play cFailBa cBack (setup "m1" "m2" "ctx" ["s1", "s2"] ["f1"] ["f2"] 3
        "pa" "pb" 0) = Except.error e ∧
      e.complete_turns = 2 - 1 ∧
      e.current_turn = 2 ∧
      (∀ ev ∈ e.log, ev.typ ≠ "info" ∧ ev.typ ≠ "error") ∧
      "Played turns" ∉ e.keys.map Prod.fst :=
  play_aborts_without_logging 3 2 (by decide) (by decide) cFailBa cBack
    (fun h i hi => by simp only [cFailBa]; rw [if_neg (by omega)]; rfl)
    (fun h => rfl) (fun h => rfl)
    (fun h i hi => rfl) (fun h => rfl)
    "m1" "m2" "ctx" ["s1", "s2"] ["f1"] ["f2"] "pa" "pb" 0

/-- C8 (counterexample): after an abort (backend fault on turn 2 of 3)
the episode ends without finalization: the evaluation keys contain no
'Played turns' entry at all, refuting the claim for aborted episodes. -/
theorem finalize_abort_counterexample :
    play cFailBa cBack cSetup3 = Except.error (stateOf (play cFailBa cBack cSetup3)) ∧
    "Played turns" ∉ (stateOf (play cFailBa cBack cSetup3)).keys.map Prod.fst ∧
    "n_turns" ∈ (stateOf (play cFailBa cBack cSetup3)).keys.map Prod.fst := by
  decide

/-- C8 (amended): whenever finalization runs — i.e. at the end of every
completed episode — it records the evaluation key 'Played turns' equal to
current_turn and logs a 'game successful' info event exactly when
complete_turns equals n_turns, followed by the unconditional 'end game'
info event; an aborted episode never reaches finalization, leaving its
evaluation keys unchanged (in particular without 'Played turns'). -/
theorem finalize_records_on_completion (ba bb : Backend) :
    (∀ s : GState,
      (finishPlay s).keys = s.keys ++ [("Played turns", s.current_turn)]) ∧
    (∀ s : GState, (finishPlay s).log = s.log ++
      (if s.complete_turns = s.n_turns
        then [Event.mk "GM" "GM" "info" "game successful"] else []) ++
      [Event.mk "GM" "GM" "info" "end game"]) ∧
    (∀ s e : GState, play ba bb s = Except.error e → e.keys = s.keys) :=
  ⟨finishPlay_keys, finishPlay_log, fun s e h => play_error_keys ba bb s e h⟩

theorem finalize_records_on_completion_witness :
    (finishPlay cSetup1).keys = cSetup1.keys ++ [("Played turns", cSetup1.current_turn)] ∧
    (stateOf (play cFailBa cBack cSetup3)).keys = cSetup3.keys :=
  ⟨(finalize_records_on_completion cFailBa cBack).1 cSetup1,
    (finalize_records_on_completion cFailBa cBack).2.2 cSetup3 _ (by decide)⟩
